import Mathlib

/-!
Verification of the distractor-selection algorithm and session state
machine of the TX drill quiz app (src/app.py), via a shallow embedding.

Text primitives (`str.strip`, `str.split()`, `str.lower`,
`str.startswith`) are embedded as structurally recursive functions on
`String.data`, so every definition evaluates inside the kernel.

Randomness in the source (`df_pool.sample(1)`, `random.choice`,
`random.shuffle` on a two-element list) is modelled by explicit
parameters: the sampled row index, the chosen candidate index
(reduced modulo the candidate count), and a boolean deciding the
order of the two options.
-/

/-- ASCII whitespace as recognised by Python `str.strip` / `str.split`. -/
def isPyWs (c : Char) : Bool :=
  c = ' ' || c = '\t' || c = '\n' || c = '\r' || c = '\x0b' || c = '\x0c'

/-- Python `s.strip()`: drop leading and trailing whitespace. -/
def strTrim (s : String) : String :=
  ⟨(((s.data.dropWhile isPyWs).reverse).dropWhile isPyWs).reverse⟩

/-- Python `s.lower()` (ASCII case mapping). -/
def strLower (s : String) : String :=
  ⟨s.data.map Char.toLower⟩

/-- Python `s.startswith(p)`. -/
def strStartsWith (s pre : String) : Bool :=
  pre.data.isPrefixOf s.data

/-- Helper for `pySplit`: accumulate the current word (reversed) while
scanning; whitespace runs separate words and produce no empty words. -/
def pySplitGo (cur : List Char) : List Char → List (List Char)
  | [] => if cur.isEmpty then [] else [cur.reverse]
  | c :: cs =>
    if isPyWs c then
      if cur.isEmpty then pySplitGo [] cs else cur.reverse :: pySplitGo [] cs
    else pySplitGo (c :: cur) cs

/-- Python `s.split()` with no argument: split on whitespace runs,
discarding empty pieces. -/
def pySplit (s : String) : List String :=
  (pySplitGo [] s.data).map String.mk

/-- Python `" ".join(ws)` on character lists. -/
def joinSpace : List (List Char) → List Char
  | [] => []
  | [w] => w
  | w :: ws => w ++ ' ' :: joinSpace ws

/-- Embedding of the source helper `norm` (app.py lines 93-96):
strip, collapse internal whitespace runs, lowercase
(Python `" ".join(s.split()).lower()` after `s.strip()`). -/
def norm (s : String) : String :=
  strLower ⟨joinSpace ((pySplit (strTrim s)).map String.data)⟩

/-- A question-bank row after `load_questions` (id, topic, question, answer). -/
structure Row where
  id : String
  topic : String
  question : String
  answer : String
deriving Repr, DecidableEq

/-- The dictionary returned by `generate_question`. -/
structure GeneratedQuestion where
  id : String
  topic : String
  question : String
  correct : String
  options : List String
deriving Repr, DecidableEq

/-- Order-preserving first-occurrence deduplication, the semantics of
pandas `Series.unique()`; `seen` accumulates values already emitted. -/
def uniqGo (seen : List String) : List String → List String
  | [] => []
  | x :: xs => if x ∈ seen then uniqGo seen xs else x :: uniqGo (x :: seen) xs

/-- pandas `.unique().tolist()` on a list of answer strings. -/
def uniqueKeepFirst (l : List String) : List String := uniqGo [] l

/-- The configured topic-family name of app.py line 111. -/
def residencyFam : String := "residency rules"

/-- The candidate-row selection of `generate_question` (app.py lines
108-126): if the anchor topic lowercased starts with "residency rules",
take all bank rows whose lowercased topic has that prefix, whose raw
topic differs from the anchor topic, and whose id differs from the
anchor id; otherwise take bank rows with the same raw topic and a
different id. -/
def candidateRows (bank : List Row) (anchor : Row) : List Row :=
  if strStartsWith (strLower anchor.topic) residencyFam then
    bank.filter (fun r =>
      strStartsWith (strLower r.topic) residencyFam
        && r.topic != anchor.topic
        && r.id != anchor.id)
  else
    bank.filter (fun r => r.topic == anchor.topic && r.id != anchor.id)

/-- The filtering loop of `generate_question` (app.py lines 131-138 and
143-149): strip each candidate, drop empties, drop candidates whose
normalised form equals the normalised correct answer. -/
def filterCandidates (correctNorm : String) (candidates : List String) : List String :=
  candidates.filterMap (fun c =>
    let cs := strTrim c
    if cs = "" then none
    else if norm cs = correctNorm then none
    else some cs)

/-- The candidate list built before fallback widening (app.py lines
128-138). -/
def firstFiltered (bank : List Row) (anchor : Row) : List String :=
  filterCandidates (norm anchor.answer)
    (uniqueKeepFirst ((candidateRows bank anchor).map (fun r => r.answer)))

/-- The fallback candidate source: every bank row other than the anchor
(app.py line 142). -/
def fallbackCandidates (bank : List Row) (anchor : Row) : List String :=
  uniqueKeepFirst ((bank.filter (fun r => r.id != anchor.id)).map (fun r => r.answer))

/-- The candidate list after the fallback step (app.py lines 140-149):
if the topic-restricted list is empty, refilter the whole-bank list. -/
def finalCandidates (bank : List Row) (anchor : Row) : List String :=
  let filtered := firstFiltered bank anchor
  if filtered.isEmpty then
    filterCandidates (norm anchor.answer) (fallbackCandidates bank anchor)
  else filtered

/-- The sentinel distractor string of app.py line 153. -/
def sentinel : String := "No distractor available"

/-- The final distractor choice (app.py lines 151-155): the sentinel if
no candidate survived, otherwise `random.choice(filtered)`, modelled by
an arbitrary index reduced modulo the list length. -/
def chooseDistractor (bank : List Row) (anchor : Row) (distIdx : Nat) : String :=
  let fc := finalCandidates bank anchor
  if fc.isEmpty then sentinel else fc.getD (distIdx % fc.length) ""

/-- Embedding of `generate_question(df_pool, df_all)` (app.py lines
79-166).  `rowIdx` models the `df_pool.sample(1)` draw, `distIdx` the
`random.choice`, and `swap` the `random.shuffle` of the two options.
Returns `none` when the pool has no row at `rowIdx` (pandas `sample`
raises on an empty frame). -/
def generate_question (bank pool : List Row) (rowIdx distIdx : Nat) (swap : Bool) :
    Option GeneratedQuestion :=
  (pool.get? rowIdx).map (fun row =>
    let distractor := chooseDistractor bank row distIdx
    { id := row.id
      topic := row.topic
      question := row.question
      correct := row.answer
      options := if swap then [distractor, row.answer] else [row.answer, distractor] })

/-! ### Concrete banks used by counterexamples and witnesses -/

/-- One-row bank whose only answer is exactly the sentinel string. -/
def bankC1 : List Row := [⟨"Q-1", "", "q", "No distractor available"⟩]

/-- One-row bank whose only answer normalises to the sentinel string
without being equal to it. -/
def bankC4 : List Row := [⟨"Q-1", "", "q", "no DISTRACTOR available"⟩]

def rowA : Row := ⟨"Q-1", "A", "q1", "X"⟩

def rowB : Row := ⟨"Q-2", "B", "q2", "Y"⟩

/-- Two-row bank with distinct topics and answers. -/
def bankAB : List Row := [rowA, rowB]

def resA : Row := ⟨"Q-1", "Residency rules: State A", "q1", "X"⟩

def resB : Row := ⟨"Q-2", "Residency rules: State B", "q2", "Y"⟩

/-- Two-row bank inside the residency topic family. -/
def bankRes : List Row := [resA, resB]

/-- A row whose topic differs from the topic of `resA` only in letter case. -/
def resLower : Row := ⟨"Q-2", "Residency rules: state a", "q2", "Y"⟩

def bankResCase : List Row := [resA, resLower]

/-! ### Pool resolution and the script-level state machine -/

/-- The topic-filter pool resolution of app.py lines 64-67: an empty
multiselect means no constraint, otherwise keep rows whose topic is in
the selection. -/
def resolvePool (bank : List Row) (topicChoice : List String) : List Row :=
  if topicChoice.isEmpty then bank
  else bank.filter (fun r => topicChoice.contains r.topic)

/-- The Streamlit session state of app.py lines 171-176: the current
question dict (or none) and the feedback marker. -/
structure AppState where
  current_q : Option GeneratedQuestion
  feedback : Option String
deriving Repr, DecidableEq

/-- The id column of the pool, app.py line 193 reads it via
`df_pool["id"].values`. -/
def poolIds (pool : List Row) : List String := pool.map (fun r => r.id)

/-- The handler `new_question` (app.py lines 185-188): generate a fresh
question and clear the feedback (the radio reset has no model-visible
effect: the selection is an event parameter here). -/
def new_question (bank pool : List Row) (ri di : Nat) (sw : Bool) : AppState :=
  { current_q := generate_question bank pool ri di sw, feedback := none }

/-- The draw-on-entry block of app.py lines 191-194: draw a new question
when there is none or when the current one's id left the pool. -/
def ensureCurrent (bank pool : List Row) (ri di : Nat) (sw : Bool) (s : AppState) : AppState :=
  match s.current_q with
  | none => new_question bank pool ri di sw
  | some q => if q.id ∈ poolIds pool then s else new_question bank pool ri di sw

/-- The feedback computed by the check handler (app.py lines 225-229):
exact string comparison of the selection with the correct answer. -/
def checkFeedback (q : GeneratedQuestion) (selected : String) : String :=
  if selected = q.correct then "correct" else "incorrect"

/-- The external event driving one script rerun: a plain rerun (e.g.
after a filter change), the "Next question" button, or the submission
of the answer form with a selected option. -/
inductive AppEvent
  | rerun
  | nextQuestion
  | checkAnswer (selected : String)

/-- One top-to-bottom run of the script body (app.py lines 191-240):
draw-on-entry, then the Next-button handler, then the dereference of
`ss.current_q` by the form renderer (a `none` there would crash the
script, modelled as the `none` result), then the check handler.
The second random triple feeds the Next-button redraw. -/
def runScript (bank pool : List Row) (ri1 di1 : Nat) (sw1 : Bool) (ri2 di2 : Nat) (sw2 : Bool)
    (ev : AppEvent) (s : AppState) : Option AppState :=
  match ev, ensureCurrent bank pool ri1 di1 sw1 s with
  | AppEvent.rerun, s1 =>
    match s1.current_q with
    | none => none
    | some _ => some s1
  | AppEvent.nextQuestion, _ =>
    match (new_question bank pool ri2 di2 sw2).current_q with
    | none => none
    | some _ => some (new_question bank pool ri2 di2 sw2)
  | AppEvent.checkAnswer sel, s1 =>
    match s1.current_q with
    | none => none
    | some q => some { s1 with feedback := some (checkFeedback q sel) }

/-! ### Spec-modelled scoring state machine -/

/-- Modelled from the spec: the SessionState of spec §3 with the running
counters `seen_count` and `correct_count` and the `scored_ids` marker
set.  These fields are absent from src/app.py (which keeps only
`current_q` and `feedback`); the spec collapses several variants of the
app and the counter logic lives in the variants not present under src/. -/
structure SessionState where
  current : Option GeneratedQuestion
  scored_ids : List String
  seen_count : Nat
  correct_count : Nat
  feedback : Option String
deriving Repr, DecidableEq

/-- Modelled from the spec: the `draw()` transition of spec §4.3 —
install a fresh question, clear its answered marker and the feedback. -/
def specDraw (s : SessionState) (q : GeneratedQuestion) : SessionState :=
  { s with current := some q,
           scored_ids := s.scored_ids.filter (fun i => i != q.id),
           feedback := none }

/-- Modelled from the spec: the `check(selected_option)` transition of
spec §4.3 — no-op without a current question; otherwise compare by exact
string equality, record feedback, and bump `seen_count` and (on a correct
selection) `correct_count` only if this question's id was not already
scored since its last draw. -/
def specCheck (s : SessionState) (selected : String) : SessionState :=
  match s.current with
  | none => s
  | some q =>
    if q.id ∈ s.scored_ids then
      { s with feedback := some (if selected = q.correct then "correct" else "incorrect") }
    else
      { s with
        feedback := some (if selected = q.correct then "correct" else "incorrect"),
        scored_ids := q.id :: s.scored_ids,
        seen_count := s.seen_count + 1,
        correct_count := s.correct_count + (if selected = q.correct then 1 else 0) }

/-! ### Membership lemmas for the candidate pipeline -/

theorem mem_uniqGo (x : String) (l : List String) :
    ∀ seen, x ∈ uniqGo seen l ↔ x ∈ l ∧ x ∉ seen := by
  induction l with
  | nil => intro seen; simp [uniqGo]
  | cons y ys ih =>
    intro seen
    by_cases hy : y ∈ seen
    · rw [uniqGo, if_pos hy, ih seen]
      simp only [List.mem_cons]
      constructor
      · rintro ⟨h1, h2⟩; exact ⟨Or.inr h1, h2⟩
      · rintro ⟨h1 | h1, h2⟩
        · exact absurd (h1 ▸ hy) h2
        · exact ⟨h1, h2⟩
    · rw [uniqGo, if_neg hy]
      simp only [List.mem_cons, ih (y :: seen)]
      constructor
      · rintro (h | ⟨h1, h2⟩)
        · exact ⟨Or.inl h, h ▸ hy⟩
        · exact ⟨Or.inr h1, fun hc => h2 (Or.inr hc)⟩
      · rintro ⟨h1 | h1, h2⟩
        · exact Or.inl h1
        · by_cases hxy : x = y
          · exact Or.inl hxy
          · exact Or.inr ⟨h1, fun hc => hc.elim hxy h2⟩

theorem mem_uniqueKeepFirst (x : String) (l : List String) :
    x ∈ uniqueKeepFirst l ↔ x ∈ l := by
  rw [uniqueKeepFirst, mem_uniqGo]; simp

theorem mem_filterCandidates (x cn : String) (l : List String) :
    x ∈ filterCandidates cn l ↔
      ∃ c, c ∈ l ∧ strTrim c = x ∧ x ≠ "" ∧ norm x ≠ cn := by
  simp only [filterCandidates, List.mem_filterMap]
  constructor
  · rintro ⟨c, hc, hf⟩
    by_cases h1 : strTrim c = ""
    · rw [if_pos h1] at hf; exact absurd hf (by simp)
    · by_cases h2 : norm (strTrim c) = cn
      · rw [if_neg h1, if_pos h2] at hf; exact absurd hf (by simp)
      · rw [if_neg h1, if_neg h2] at hf
        have hcx := Option.some.inj hf
        subst hcx
        exact ⟨c, hc, rfl, h1, h2⟩
  · rintro ⟨c, hc, rfl, h1, h2⟩
    exact ⟨c, hc, by rw [if_neg h1, if_neg h2]⟩

theorem mem_finalCandidates_norm_ne {bank : List Row} {anchor : Row} {x : String}
    (hx : x ∈ finalCandidates bank anchor) :
    x ≠ "" ∧ norm x ≠ norm anchor.answer := by
  rw [finalCandidates] at hx
  split at hx
  · obtain ⟨c, _, _, h1, h2⟩ := (mem_filterCandidates x _ _).mp hx
    exact ⟨h1, h2⟩
  · rw [firstFiltered] at hx
    obtain ⟨c, _, _, h1, h2⟩ := (mem_filterCandidates x _ _).mp hx
    exact ⟨h1, h2⟩

theorem chooseDistractor_mem {bank : List Row} {anchor : Row} (i : Nat)
    (h : finalCandidates bank anchor ≠ []) :
    chooseDistractor bank anchor i ∈ finalCandidates bank anchor := by
  rw [chooseDistractor, if_neg (by simp [List.isEmpty_iff, h])]
  have hlt : i % (finalCandidates bank anchor).length < (finalCandidates bank anchor).length :=
    Nat.mod_lt _ (List.length_pos.mpr h)
  rw [List.getD_eq_getElem?_getD, List.getElem?_eq_getElem hlt]
  exact List.getElem_mem _

theorem chooseDistractor_sentinel {bank : List Row} {anchor : Row} (i : Nat)
    (h : finalCandidates bank anchor = []) :
    chooseDistractor bank anchor i = sentinel := by
  rw [chooseDistractor, if_pos (by simp [List.isEmpty_iff, h])]

theorem chooseDistractor_ne_correct {bank : List Row} {anchor : Row} (i : Nat)
    (h : finalCandidates bank anchor ≠ []) :
    chooseDistractor bank anchor i ≠ anchor.answer ∧
    norm (chooseDistractor bank anchor i) ≠ norm anchor.answer := by
  have hn := (mem_finalCandidates_norm_ne (chooseDistractor_mem i h)).2
  exact ⟨fun he => hn (he ▸ rfl), hn⟩

theorem generate_question_eq {bank pool : List Row} {ri : Nat} {anchor : Row}
    (ha : pool.get? ri = some anchor) (di : Nat) (sw : Bool) :
    generate_question bank pool ri di sw = some
      { id := anchor.id, topic := anchor.topic, question := anchor.question,
        correct := anchor.answer,
        options := if sw then [chooseDistractor bank anchor di, anchor.answer]
          else [anchor.answer, chooseDistractor bank anchor di] } := by
  rw [generate_question, ha, Option.map_some']

/-! ### Claim theorems -/

/-- Claim C1, amended: for every generated question whose correct answer
is not exactly the sentinel string "No distractor available", the options
list contains the correct answer exactly once by exact string match.
(The unamended claim fails when the correct answer is exactly the
sentinel and the degenerate zero-candidate case occurs.) -/
theorem generate_question_correct_once (bank pool : List Row) (ri di : Nat) (sw : Bool)
    (anchor : Row) (ha : pool.get? ri = some anchor) (hs : anchor.answer ≠ sentinel) :
    ∃ q, generate_question bank pool ri di sw = some q ∧
      q.correct = anchor.answer ∧ List.count q.correct q.options = 1 := by
  refine ⟨_, generate_question_eq ha di sw, rfl, ?_⟩
  have hd : chooseDistractor bank anchor di ≠ anchor.answer := by
    by_cases h : finalCandidates bank anchor = []
    · rw [chooseDistractor_sentinel di h]; exact fun he => hs he.symm
    · exact (chooseDistractor_ne_correct di h).1
  cases sw <;> simp [List.count_cons, hd, Ne.symm hd]

/-- Witness for C1: on the two-row bank, drawing `rowA` yields options
containing "X" exactly once. -/
theorem generate_question_correct_once_witness :
    bankAB.get? 0 = some rowA ∧ rowA.answer ≠ sentinel ∧
    ∃ q, generate_question bankAB bankAB 0 0 false = some q ∧
      q.correct = rowA.answer ∧ List.count q.correct q.options = 1 :=
  ⟨by decide, by decide,
    generate_question_correct_once bankAB bankAB 0 0 false rowA (by decide) (by decide)⟩

/-- Counterexample to C1 as stated: when the bank's only answer is
exactly the sentinel string, the degenerate case produces the sentinel
as distractor and the options contain the correct answer twice. -/
theorem generate_question_correct_once_cex :
    ∃ q, generate_question bankC1 bankC1 0 0 false = some q ∧
      List.count q.correct q.options = 2 :=
  ⟨⟨"Q-1", "", "q", "No distractor available",
    ["No distractor available", "No distractor available"]⟩, by decide, by decide⟩

/-- Claim C3: when the anchor topic matches the family by a
case-insensitive prefix, the pre-fallback candidate rows are exactly the
bank rows in the same family with a different topic and a different id,
and any distractor selected before fallback widening is the trimmed
answer of such a row. -/
theorem family_candidates_characterization (bank : List Row) (anchor : Row)
    (hfam : strStartsWith (strLower anchor.topic) residencyFam = true) :
    (∀ r, r ∈ candidateRows bank anchor ↔
      r ∈ bank ∧ strStartsWith (strLower r.topic) residencyFam = true ∧
        r.topic ≠ anchor.topic ∧ r.id ≠ anchor.id) ∧
    (∀ i, firstFiltered bank anchor ≠ [] →
      ∃ r, r ∈ candidateRows bank anchor ∧
        chooseDistractor bank anchor i = strTrim r.answer) := by
  constructor
  · intro r
    rw [candidateRows, if_pos hfam, List.mem_filter]
    simp [Bool.and_eq_true, bne_iff_ne, and_assoc]
  · intro i hff
    have hfc : finalCandidates bank anchor = firstFiltered bank anchor := by
      rw [finalCandidates, if_neg (by simp [List.isEmpty_iff, hff])]
    have hne : finalCandidates bank anchor ≠ [] := by rw [hfc]; exact hff
    have hm := chooseDistractor_mem i hne
    rw [hfc, firstFiltered] at hm
    obtain ⟨c, hcl, hct, _, _⟩ := (mem_filterCandidates _ _ _).mp hm
    rw [mem_uniqueKeepFirst, List.mem_map] at hcl
    obtain ⟨r, hr, rfl⟩ := hcl
    exact ⟨r, hr, hct.symm⟩

/-- Witness for C3 on the two-row residency bank. -/
theorem family_candidates_characterization_witness :
    strStartsWith (strLower resA.topic) residencyFam = true ∧
    firstFiltered bankRes resA ≠ [] ∧
    (resB ∈ candidateRows bankRes resA ↔
      resB ∈ bankRes ∧ strStartsWith (strLower resB.topic) residencyFam = true ∧
        resB.topic ≠ resA.topic ∧ resB.id ≠ resA.id) ∧
    (∃ r, r ∈ candidateRows bankRes resA ∧
      chooseDistractor bankRes resA 0 = strTrim r.answer) :=
  ⟨by decide, by decide,
    (family_candidates_characterization bankRes resA (by decide)).1 resB,
    (family_candidates_characterization bankRes resA (by decide)).2 0 (by decide)⟩

/-- Claim C4, amended: outside the degenerate zero-candidate case, the
distractor's normalised form never equals the normalised correct answer.
(The unamended claim fails when the degenerate sentinel distractor
normalises to the normalised correct answer.) -/
theorem distractor_norm_ne (bank pool : List Row) (ri di : Nat) (sw : Bool)
    (anchor : Row) (ha : pool.get? ri = some anchor)
    (hne : finalCandidates bank anchor ≠ []) :
    ∃ q, generate_question bank pool ri di sw = some q ∧
      q.correct = anchor.answer ∧
      (q.options = [q.correct, chooseDistractor bank anchor di] ∨
        q.options = [chooseDistractor bank anchor di, q.correct]) ∧
      norm (chooseDistractor bank anchor di) ≠ norm q.correct := by
  refine ⟨_, generate_question_eq ha di sw, rfl, ?_, (chooseDistractor_ne_correct di hne).2⟩
  cases sw
  · exact Or.inl rfl
  · exact Or.inr rfl

/-- Witness for C4 on the two-row bank. -/
theorem distractor_norm_ne_witness :
    bankAB.get? 0 = some rowA ∧ finalCandidates bankAB rowA ≠ [] ∧
    ∃ q, generate_question bankAB bankAB 0 0 false = some q ∧
      q.correct = rowA.answer ∧
      (q.options = [q.correct, chooseDistractor bankAB rowA 0] ∨
        q.options = [chooseDistractor bankAB rowA 0, q.correct]) ∧
      norm (chooseDistractor bankAB rowA 0) ≠ norm q.correct :=
  ⟨by decide, by decide,
    distractor_norm_ne bankAB bankAB 0 0 false rowA (by decide) (by decide)⟩

/-- Counterexample to C4 as stated: a generated question with an option
distinct from the correct answer whose normalised form equals the
normalised correct answer (the degenerate sentinel distractor). -/
theorem distractor_norm_ne_cex :
    ∃ q d, generate_question bankC4 bankC4 0 0 false = some q ∧
      d ∈ q.options ∧ d ≠ q.correct ∧ norm d = norm q.correct :=
  ⟨⟨"Q-1", "", "q", "no DISTRACTOR available",
    ["no DISTRACTOR available", "No distractor available"]⟩,
   "No distractor available", by decide, by decide, by decide, by decide⟩

/-- Claim C5: generation always succeeds; when the topic-restricted
candidate list is empty, the candidate source is widened to the whole
bank minus the anchor with the same filter reapplied, and if even that
yields nothing the sentinel distractor is used. -/
theorem fallback_widening (bank pool : List Row) (ri di : Nat) (sw : Bool)
    (anchor : Row) (ha : pool.get? ri = some anchor) :
    ∃ q, generate_question bank pool ri di sw = some q ∧ q.options.length = 2 ∧
      (firstFiltered bank anchor = [] →
        (finalCandidates bank anchor =
          filterCandidates (norm anchor.answer) (fallbackCandidates bank anchor)) ∧
        ((finalCandidates bank anchor = [] ∧ sentinel ∈ q.options) ∨
          ∃ r, r ∈ bank ∧ r.id ≠ anchor.id ∧
            chooseDistractor bank anchor di = strTrim r.answer ∧
            strTrim r.answer ∈ q.options ∧ strTrim r.answer ≠ "" ∧
            norm (strTrim r.answer) ≠ norm anchor.answer)) := by
  refine ⟨_, generate_question_eq ha di sw, by cases sw <;> rfl, ?_⟩
  intro hff
  have hwide : finalCandidates bank anchor =
      filterCandidates (norm anchor.answer) (fallbackCandidates bank anchor) := by
    rw [finalCandidates, if_pos (by simp [List.isEmpty_iff, hff])]
  refine ⟨hwide, ?_⟩
  by_cases hfc : finalCandidates bank anchor = []
  · left
    refine ⟨hfc, ?_⟩
    cases sw <;> simp [chooseDistractor_sentinel di hfc]
  · right
    have hm := chooseDistractor_mem di hfc
    rw [hwide] at hm
    obtain ⟨c, hcl, hct, hne, hnn⟩ := (mem_filterCandidates _ _ _).mp hm
    rw [fallbackCandidates, mem_uniqueKeepFirst, List.mem_map] at hcl
    obtain ⟨r, hrf, rfl⟩ := hcl
    rw [List.mem_filter] at hrf
    obtain ⟨hrb, hrid⟩ := hrf
    refine ⟨r, hrb, by simpa [bne_iff_ne] using hrid, hct.symm, ?_, hct ▸ hne, hct ▸ hnn⟩
    rw [hct]
    cases sw <;> simp

/-- Witness for C5: a bank where the anchor's topic has no other row,
forcing the fallback widening to the whole bank. -/
theorem fallback_widening_witness :
    bankAB.get? 0 = some rowA ∧ firstFiltered bankAB rowA = [] ∧
    ∃ q, generate_question bankAB bankAB 0 0 false = some q ∧ q.options.length = 2 ∧
      (firstFiltered bankAB rowA = [] →
        (finalCandidates bankAB rowA =
          filterCandidates (norm rowA.answer) (fallbackCandidates bankAB rowA)) ∧
        ((finalCandidates bankAB rowA = [] ∧ sentinel ∈ q.options) ∨
          ∃ r, r ∈ bankAB ∧ r.id ≠ rowA.id ∧
            chooseDistractor bankAB rowA 0 = strTrim r.answer ∧
            strTrim r.answer ∈ q.options ∧ strTrim r.answer ≠ "" ∧
            norm (strTrim r.answer) ≠ norm rowA.answer)) :=
  ⟨by decide, by decide, fallback_widening bankAB bankAB 0 0 false rowA (by decide)⟩

/-- Claim C10: in the topic-family branch, family membership is tested
case-insensitively while the own-topic exclusion is a case-sensitive
string inequality, so a bank row whose topic differs from the anchor's
only in letter case is eligible as a pre-fallback distractor source. -/
theorem case_variant_topic_eligible (bank : List Row) (anchor r : Row)
    (hfam : strStartsWith (strLower anchor.topic) residencyFam = true)
    (hmem : r ∈ bank) (hlow : strLower r.topic = strLower anchor.topic)
    (hne : r.topic ≠ anchor.topic) (hid : r.id ≠ anchor.id) :
    r ∈ candidateRows bank anchor := by
  rw [candidateRows, if_pos hfam, List.mem_filter]
  refine ⟨hmem, ?_⟩
  simp [Bool.and_eq_true, bne_iff_ne, hne, hid, hlow, hfam]

/-- Witness for C10: topics "Residency rules: State A" and
"Residency rules: state a" differ only in case; the second row is a
pre-fallback candidate for the first, and indeed supplies the
distractor. -/
theorem case_variant_topic_eligible_witness :
    strStartsWith (strLower resA.topic) residencyFam = true ∧
    resLower ∈ bankResCase ∧ strLower resLower.topic = strLower resA.topic ∧
    resLower.topic ≠ resA.topic ∧ resLower.id ≠ resA.id ∧
    resLower ∈ candidateRows bankResCase resA ∧
    chooseDistractor bankResCase resA 0 = "Y" :=
  ⟨by decide, by decide, by decide, by decide, by decide,
    case_variant_topic_eligible bankResCase resA resLower
      (by decide) (by decide) (by decide) (by decide) (by decide),
    by decide⟩

/-- After draw-on-entry the current question exists and its id belongs
to the pool, provided the pool is non-empty (the script stops earlier
on an empty pool, app.py lines 69-71). -/
theorem ensureCurrent_spec (bank pool : List Row) (ri di : Nat) (sw : Bool)
    (s : AppState) (hri : ri < pool.length) :
    ∃ q, (ensureCurrent bank pool ri di sw s).current_q = some q ∧ q.id ∈ poolIds pool := by
  have hrow : pool.get? ri = some (pool.get ⟨ri, hri⟩) := List.get?_eq_get hri
  have hmem : pool.get ⟨ri, hri⟩ ∈ pool := List.get_mem pool ri hri
  have hgen : ∃ qg, generate_question bank pool ri di sw = some qg ∧ qg.id ∈ poolIds pool := by
    refine ⟨_, generate_question_eq hrow di sw, ?_⟩
    exact List.mem_map_of_mem (fun r => r.id) hmem
  obtain ⟨qg, hqg, hqid⟩ := hgen
  cases hs : s.current_q with
  | none => exact ⟨qg, by simp [ensureCurrent, hs, new_question, hqg], hqid⟩
  | some q0 =>
    by_cases hin : q0.id ∈ poolIds pool
    · exact ⟨q0, by simp [ensureCurrent, hs, hin], hin⟩
    · exact ⟨qg, by simp [ensureCurrent, hs, hin, new_question, hqg], hqid⟩

/-- Shared totality lemma: every script run completes with a current
question whose id is in the pool. -/
theorem runScript_total (bank pool : List Row) (ri1 di1 : Nat) (sw1 : Bool)
    (ri2 di2 : Nat) (sw2 : Bool) (ev : AppEvent) (s : AppState)
    (h1 : ri1 < pool.length) (h2 : ri2 < pool.length) :
    ∃ s2 q, runScript bank pool ri1 di1 sw1 ri2 di2 sw2 ev s = some s2 ∧
      s2.current_q = some q ∧ q.id ∈ poolIds pool := by
  obtain ⟨q1, hq1, hm1⟩ := ensureCurrent_spec bank pool ri1 di1 sw1 s h1
  cases ev with
  | rerun => exact ⟨_, q1, by simp [runScript, hq1], hq1, hm1⟩
  | nextQuestion =>
    have hrow : pool.get? ri2 = some (pool.get ⟨ri2, h2⟩) := List.get?_eq_get h2
    have hmem : pool.get ⟨ri2, h2⟩ ∈ pool := List.get_mem pool ri2 h2
    have hcur : (new_question bank pool ri2 di2 sw2).current_q =
        some { id := (pool.get ⟨ri2, h2⟩).id, topic := (pool.get ⟨ri2, h2⟩).topic,
               question := (pool.get ⟨ri2, h2⟩).question,
               correct := (pool.get ⟨ri2, h2⟩).answer,
               options := if sw2 then
                   [chooseDistractor bank (pool.get ⟨ri2, h2⟩) di2, (pool.get ⟨ri2, h2⟩).answer]
                 else
                   [(pool.get ⟨ri2, h2⟩).answer,
                     chooseDistractor bank (pool.get ⟨ri2, h2⟩) di2] } := by
      simp [new_question, generate_question_eq hrow di2 sw2]
    refine ⟨new_question bank pool ri2 di2 sw2, _, ?_, hcur,
      List.mem_map_of_mem (fun r => r.id) hmem⟩
    simp [runScript, hcur]
  | checkAnswer sel =>
    refine ⟨{ ensureCurrent bank pool ri1 di1 sw1 s with
        feedback := some (checkFeedback q1 sel) }, q1, ?_, hq1, hm1⟩
    simp [runScript, hq1]

/-- Claim C6: the check handler scores by exact string equality — the
feedback is "correct" exactly when the selection is character-for-
character equal to the correct answer, and "incorrect" otherwise;
normalised equality plays no role. -/
theorem check_exact_equality (q : GeneratedQuestion) (sel : String) :
    (checkFeedback q sel = "correct" ↔ sel = q.correct) ∧
    (checkFeedback q sel = "incorrect" ↔ sel ≠ q.correct) := by
  rw [checkFeedback]
  by_cases h : sel = q.correct
  · rw [if_pos h]
    exact ⟨⟨fun _ => h, fun _ => rfl⟩,
      ⟨fun hc => absurd hc (by decide), fun hc => absurd h hc⟩⟩
  · rw [if_neg h]
    exact ⟨⟨fun hc => absurd hc (by decide), fun hc => absurd hc h⟩,
      ⟨fun _ => h, fun _ => rfl⟩⟩

/-- Claim C7: draw-on-entry — when no current question exists or its id
left the pool, a fresh question is drawn, and after any script run the
current question's id belongs to the active pool. -/
theorem draw_on_entry (bank pool : List Row) (ri1 di1 : Nat) (sw1 : Bool)
    (ri2 di2 : Nat) (sw2 : Bool) (ev : AppEvent) (s : AppState)
    (h1 : ri1 < pool.length) (h2 : ri2 < pool.length) :
    ((s.current_q = none ∨ ∃ q0, s.current_q = some q0 ∧ q0.id ∉ poolIds pool) →
      ensureCurrent bank pool ri1 di1 sw1 s = new_question bank pool ri1 di1 sw1) ∧
    ∃ s2 q, runScript bank pool ri1 di1 sw1 ri2 di2 sw2 ev s = some s2 ∧
      s2.current_q = some q ∧ q.id ∈ poolIds pool := by
  constructor
  · rintro (hn | ⟨q0, hq0, hout⟩)
    · simp [ensureCurrent, hn]
    · simp [ensureCurrent, hq0, hout]
  · exact runScript_total bank pool ri1 di1 sw1 ri2 di2 sw2 ev s h1 h2

/-- Witness for C7: starting from a state whose current question left
the pool, a rerun redraws and the resulting id is in the pool. -/
theorem draw_on_entry_witness :
    0 < bankAB.length ∧
    (((⟨some ⟨"Q-9", "Z", "old", "W", ["W"]⟩, none⟩ : AppState).current_q = none ∨
      ∃ q0, (⟨some ⟨"Q-9", "Z", "old", "W", ["W"]⟩, none⟩ : AppState).current_q = some q0 ∧
        q0.id ∉ poolIds bankAB) →
      ensureCurrent bankAB bankAB 0 0 false ⟨some ⟨"Q-9", "Z", "old", "W", ["W"]⟩, none⟩ =
        new_question bankAB bankAB 0 0 false) ∧
    ∃ s2 q, runScript bankAB bankAB 0 0 false 0 0 false AppEvent.rerun
        ⟨some ⟨"Q-9", "Z", "old", "W", ["W"]⟩, none⟩ = some s2 ∧
      s2.current_q = some q ∧ q.id ∈ poolIds bankAB :=
  ⟨by decide,
    draw_on_entry bankAB bankAB 0 0 false 0 0 false AppEvent.rerun
      ⟨some ⟨"Q-9", "Z", "old", "W", ["W"]⟩, none⟩ (by decide) (by decide)⟩

/-- Claim C8: an empty topic selection leaves the pool equal to the
whole bank; a non-empty selection keeps exactly the bank rows whose
topic is selected, and the pool is always an order-preserving sublist
of the bank. -/
theorem resolvePool_spec (bank : List Row) (tc : List String) :
    (tc = [] → resolvePool bank tc = bank) ∧
    (tc ≠ [] → ∀ r, r ∈ resolvePool bank tc ↔ r ∈ bank ∧ r.topic ∈ tc) ∧
    List.Sublist (resolvePool bank tc) bank := by
  refine ⟨?_, ?_, ?_⟩
  · intro h; rw [resolvePool, if_pos (by simp [h])]
  · intro h r
    rw [resolvePool, if_neg (by simp [List.isEmpty_iff, h]), List.mem_filter]
    simp
  · rw [resolvePool]
    split
    · exact List.Sublist.refl _
    · exact List.filter_sublist _

/-- Witness for C8 on the two-row bank. -/
theorem resolvePool_spec_witness :
    resolvePool bankAB [] = bankAB ∧
    (rowA ∈ resolvePool bankAB ["A"] ↔ rowA ∈ bankAB ∧ rowA.topic ∈ ["A"]) ∧
    List.Sublist (resolvePool bankAB ["A"]) bankAB :=
  ⟨(resolvePool_spec bankAB []).1 rfl,
    (resolvePool_spec bankAB ["A"]).2.1 (by decide) rowA,
    (resolvePool_spec bankAB ["A"]).2.2⟩

/-- Claim C9: under the draw-on-entry invariant, a script run carrying a
check event always finds a present current question (the none case of
the check handler is unreachable on a non-empty pool), completes
without error, and records the feedback computed from that question. -/
theorem check_never_dereferences_none (bank pool : List Row) (ri1 di1 : Nat) (sw1 : Bool)
    (ri2 di2 : Nat) (sw2 : Bool) (sel : String) (s : AppState)
    (h1 : ri1 < pool.length) :
    ∃ s2 q, runScript bank pool ri1 di1 sw1 ri2 di2 sw2 (AppEvent.checkAnswer sel) s = some s2 ∧
      (ensureCurrent bank pool ri1 di1 sw1 s).current_q = some q ∧
      s2.current_q = some q ∧
      s2.feedback = some (checkFeedback q sel) := by
  obtain ⟨q1, hq1, _⟩ := ensureCurrent_spec bank pool ri1 di1 sw1 s h1
  refine ⟨{ ensureCurrent bank pool ri1 di1 sw1 s with
      feedback := some (checkFeedback q1 sel) }, q1, ?_, hq1, hq1, rfl⟩
  simp [runScript, hq1]

/-- Witness for C9: checking "X" from the empty initial state completes
and yields correct feedback for the drawn question. -/
theorem check_never_dereferences_none_witness :
    0 < bankAB.length ∧
    ∃ s2 q, runScript bankAB bankAB 0 0 false 0 0 false (AppEvent.checkAnswer "X")
        ⟨none, none⟩ = some s2 ∧
      (ensureCurrent bankAB bankAB 0 0 false ⟨none, none⟩).current_q = some q ∧
      s2.current_q = some q ∧
      s2.feedback = some (checkFeedback q "X") :=
  ⟨by decide,
    check_never_dereferences_none bankAB bankAB 0 0 false 0 0 false "X" ⟨none, none⟩ (by decide)⟩

/-- Claim C2: checking twice in succession on the same still-current,
not-yet-scored question bumps `seen_count` by exactly one and
`correct_count` by exactly one when the first selection is correct; the
second check changes the displayed feedback only. -/
theorem specCheck_idempotent (s : SessionState) (q : GeneratedQuestion) (sel1 sel2 : String)
    (hcur : s.current = some q) (hun : q.id ∉ s.scored_ids) :
    (specCheck s sel1).current = some q ∧
    (specCheck (specCheck s sel1) sel2).seen_count = s.seen_count + 1 ∧
    ((specCheck (specCheck s sel1) sel2).correct_count =
      if sel1 = q.correct then s.correct_count + 1 else s.correct_count) ∧
    (specCheck (specCheck s sel1) sel2).feedback =
      some (if sel2 = q.correct then "correct" else "incorrect") ∧
    (specCheck (specCheck s sel1) sel2).seen_count = (specCheck s sel1).seen_count ∧
    (specCheck (specCheck s sel1) sel2).correct_count = (specCheck s sel1).correct_count := by
  have h1 : specCheck s sel1 = { s with
      feedback := some (if sel1 = q.correct then "correct" else "incorrect"),
      scored_ids := q.id :: s.scored_ids,
      seen_count := s.seen_count + 1,
      correct_count := s.correct_count + (if sel1 = q.correct then 1 else 0) } := by
    unfold specCheck
    rw [hcur]
    simp [hun]
  have h2 : specCheck (specCheck s sel1) sel2 = { specCheck s sel1 with
      feedback := some (if sel2 = q.correct then "correct" else "incorrect") } := by
    rw [h1]
    unfold specCheck
    simp [hcur]
  rw [h2, h1]
  refine ⟨hcur, rfl, ?_, rfl, rfl, rfl⟩
  by_cases hc : sel1 = q.correct <;> simp [hc]

/-- Witness for C2: a concrete two-check run on a fresh question. -/
theorem specCheck_idempotent_witness :
    (⟨some ⟨"Q-1", "A", "q1", "X", ["X", "Y"]⟩, [], 3, 2, none⟩ : SessionState).current =
      some ⟨"Q-1", "A", "q1", "X", ["X", "Y"]⟩ ∧
    (specCheck (specCheck ⟨some ⟨"Q-1", "A", "q1", "X", ["X", "Y"]⟩, [], 3, 2, none⟩ "X")
      "X").seen_count = 3 + 1 ∧
    (specCheck (specCheck ⟨some ⟨"Q-1", "A", "q1", "X", ["X", "Y"]⟩, [], 3, 2, none⟩ "X")
      "X").correct_count =
      (if "X" = (⟨"Q-1", "A", "q1", "X", ["X", "Y"]⟩ : GeneratedQuestion).correct
        then 2 + 1 else 2) ∧
    (specCheck (specCheck ⟨some ⟨"Q-1", "A", "q1", "X", ["X", "Y"]⟩, [], 3, 2, none⟩ "X")
      "X").correct_count = 3 :=
  ⟨rfl,
    (specCheck_idempotent ⟨some ⟨"Q-1", "A", "q1", "X", ["X", "Y"]⟩, [], 3, 2, none⟩
      ⟨"Q-1", "A", "q1", "X", ["X", "Y"]⟩ "X" "X" rfl (by decide)).2.1,
    (specCheck_idempotent ⟨some ⟨"Q-1", "A", "q1", "X", ["X", "Y"]⟩, [], 3, 2, none⟩
      ⟨"Q-1", "A", "q1", "X", ["X", "Y"]⟩ "X" "X" rfl (by decide)).2.2.1,
    by decide⟩
